import Mathlib

/-!
Verification development for the `eshorizon` event-sourcing core.

Each Rust component relevant to the checked claims is shallowly embedded:

* `src/src/eventstore.rs` — the `InMemoryEventStore` (the repository's only
  `EventStore` implementation): `save`, `load`, `load_from` over an internal
  `Vec<(Uuid, Vec<Arc<dyn Event>>, i32)>`.
* `src/src/matcher.rs` — the `EventMatcher` algebra (`MatchEvents`,
  `MatchAggregates`, `MatchAny`, `MatchAll`).
* `src/src/middleware.rs` — `use_command_handler_middleware` /
  `use_event_handler_middleware`.
* `src/src/outbox.rs` — `SimpleOutbox` (`add_handler`, `handle_event`, `errors`).
* `src/src/eventbus.rs` — `EventBus` (`new`, `add_handler`, `errors`, `close`).

Modelling conventions:

* `Uuid` (a 128-bit identifier only ever compared for equality in this code)
  is modelled as `Nat`.
* Rust `i32` versions are modelled as `Int`; the embedded code performs no
  arithmetic on versions (only `>=` comparisons), so no overflow site exists.
* `Uuid::new_v4()` inside `InMemoryEventStore::save` produces a fresh random
  id; the model takes that id as an explicit `freshId` argument.
* Mutex-guarded interior mutability becomes explicit state passing: a method
  that mutates returns the updated value.
* Channels (`crossbeam_channel`, `std::sync::mpsc`) are modelled by the list
  of messages that are ever sent on them; a receiver yields exactly that list.
-/

namespace ESHorizon

/-! Section 1: the event store of `src/src/eventstore.rs`. -/

/-- Model of `uuid::Uuid`: a 128-bit identifier compared only for equality. -/
abbrev Uuid := Nat

/-- The `std::io::ErrorKind` values used when building an `EventStoreError`
in `eventstore.rs`: `InvalidInput` (empty save batch) and `NotFound`
(missing aggregate). No other kind — in particular no concurrency-conflict
kind — is ever constructed in the repository. -/
inductive ESErrKind where
  | invalidInput
  | notFound
  deriving DecidableEq, Repr

/-- Model of `EventStoreError` as built at the three construction sites in
`InMemoryEventStore`: the wrapped io error's kind and message, the `op`
string, and the optional aggregate id / version. The `aggregate_type` and
`events` fields are always `None` / `Vec::new()` at those sites and are
omitted. -/
structure ESError where
  kind : ESErrKind
  msg : String
  op : String
  aggregateId : Option Uuid
  aggregateVersion : Option Int
  deriving DecidableEq, Repr

/-- The event store treats events opaquely: the `Event` trait in
`eventstore.rs` exposes only `Display`, so `save`/`load`/`load_from` can
never read any field of an event. To state the spec's version-based claims
we instantiate the opaque event type with a record carrying a `version`
(and a `name`, as the file's `TestEvent` has); the embedded store code
below never inspects either field, exactly like the Rust code. -/
structure MEvent where
  version : Int
  name : String
  deriving DecidableEq, Repr

/-- Model of the `InMemoryEventStore` state: the Mutex-guarded
`Vec<(Uuid, Vec<Arc<dyn Event>>, i32)>` of (aggregate id, event batch,
version) entries, in push order. -/
abbrev EStore (α : Type) := List (Uuid × List α × Int)

namespace InMemoryEventStore

/-- Embedding of `InMemoryEventStore::save` (eventstore.rs lines 155-173):
if `events` is empty, return the `InvalidInput` "missing events" error;
otherwise generate a fresh aggregate id (`Uuid::new_v4()`, here the
explicit `freshId` argument) and push `(freshId, events, originalVersion)`
onto the store. No version or concurrency check of any kind is performed. -/
def save (store : EStore α) (freshId : Uuid) (events : List α)
    (originalVersion : Int) : Except ESError (EStore α) :=
  if events.isEmpty then
    .error ⟨.invalidInput, "missing events", "save", none, none⟩
  else
    .ok (store ++ [(freshId, events, originalVersion)])

/-- Embedding of `InMemoryEventStore::load` (eventstore.rs lines 175-191):
scan the store in order and return the event batch of the first entry whose
aggregate id matches; otherwise the `NotFound` "aggregate not found" error. -/
def load (store : EStore α) (aggregateId : Uuid) : Except ESError (List α) :=
  match store.find? (fun e => e.1 == aggregateId) with
  | some e => .ok e.2.1
  | none => .error ⟨.notFound, "aggregate not found", "load", some aggregateId, none⟩

/-- Embedding of `InMemoryEventStore::load_from` (eventstore.rs lines
193-209): scan the store in order and return the whole event batch of the
first entry whose aggregate id matches and whose stored version is `>=`
the requested version; otherwise the `NotFound`
"aggregate not found or version mismatch" error. Individual events are
never filtered. -/
def load_from (store : EStore α) (aggregateId : Uuid) (version : Int) :
    Except ESError (List α) :=
  match store.find? (fun e => e.1 == aggregateId && decide (version ≤ e.2.2)) with
  | some e => .ok e.2.1
  | none => .error ⟨.notFound, "aggregate not found or version mismatch",
      "load_from", some aggregateId, some version⟩

/-- Run a sequence of `save` calls (each given as (fresh id, batch,
original_version)) from a starting store; a failing call leaves the store
unchanged, exactly as an early `return Err` does in the Rust method. -/
def runSavesFrom (store : EStore α) (calls : List (Uuid × List α × Int)) :
    EStore α :=
  calls.foldl (fun st c =>
    match save st c.1 c.2.1 c.2.2 with
    | .ok st2 => st2
    | .error _ => st) store

/-- Run a sequence of `save` calls against an initially empty store. -/
def runSaves (calls : List (Uuid × List α × Int)) : EStore α :=
  runSavesFrom [] calls

/-- All events stored under a given aggregate id, in store order: the
concatenation of the event batches of every entry carrying that id. -/
def storedEvents (store : EStore α) (aggregateId : Uuid) : List α :=
  ((store.filter (fun e => e.1 == aggregateId)).map (fun e => e.2.1)).flatten

end InMemoryEventStore

/-! Section 2: the matcher algebra of `src/src/matcher.rs`. -/

/-- Model of `matcher.rs`'s `EventType(Uuid)` newtype. -/
structure EventType where
  id : Uuid
  deriving DecidableEq, Repr

/-- Model of `matcher.rs`'s `AggregateType(Uuid)` newtype. -/
structure AggregateType where
  id : Uuid
  deriving DecidableEq, Repr

/-- Model of `matcher.rs`'s `TestEvent`, the file's implementor of its
`Event` trait (`event_type()` and `aggregate_type()` accessors). -/
structure TestEvent where
  event_type : EventType
  aggregate_type : AggregateType
  deriving DecidableEq, Repr

/-- The matcher structs of `matcher.rs` as one closed datatype:
`MatchEvents`, `MatchAggregates`, and the two combinators `MatchAny` and
`MatchAll` over boxed sub-matchers. -/
inductive EventMatcher where
  | MatchEvents (event_types : List EventType)
  | MatchAggregates (aggregate_types : List AggregateType)
  | MatchAny (matchers : List EventMatcher)
  | MatchAll (matchers : List EventMatcher)

/-- Embedding of the four `EventMatcher::matches` implementations
(matcher.rs lines 32-36, 49-53, 66-70, 83-87): `MatchEvents` and
`MatchAggregates` use `iter().any` over the type lists; `MatchAny` is
`iter().any` over the sub-matchers; `MatchAll` is `iter().all`. -/
def matcherMatches (e : TestEvent) : EventMatcher → Bool
  | .MatchEvents ts => ts.any (fun t => e.event_type == t)
  | .MatchAggregates ts => ts.any (fun t => e.aggregate_type == t)
  | .MatchAny ms => ms.attach.any (fun m => matcherMatches e m.1)
  | .MatchAll ms => ms.attach.all (fun m => matcherMatches e m.1)
decreasing_by
  all_goals
    have := List.sizeOf_lt_of_mem m.2
    simp only [EventMatcher.MatchAny.sizeOf_spec, EventMatcher.MatchAll.sizeOf_spec]
    omega

/-! Section 3: the middleware composition of `src/src/middleware.rs`. -/

/-- Embedding of `use_command_handler_middleware` (middleware.rs lines
33-42): start from the terminal handler and, iterating the middleware list
in reverse, wrap the accumulated handler with each middleware. The handler
type is abstract, as `Box<dyn CommandHandler>` is opaque to this function. -/
def use_command_handler_middleware {H : Type} (handler : H)
    (middlewares : List (H → H)) : H :=
  middlewares.reverse.foldl (fun h middleware => middleware h) handler

/-- Embedding of `use_event_handler_middleware` (middleware.rs lines
76-85): identical algorithm over the event-handler type. -/
def use_event_handler_middleware {H : Type} (handler : H)
    (middlewares : List (H → H)) : H :=
  middlewares.reverse.foldl (fun h middleware => middleware h) handler

/-- A trace-observable command handler: maps a command string to the list
of log lines its execution produces, used to observe before/after ordering
of middleware effects (mirroring the println-based middlewares of the
file's tests). -/
abbrev TraceHandler := String → List String

/-- A generic decorating middleware over `TraceHandler`: logs
`name:before`, runs the wrapped handler, then logs `name:after` — the
shape of `middleware1`/`middleware2` in middleware.rs's tests. -/
def logging_middleware (name : String) : TraceHandler → TraceHandler :=
  fun next command =>
    (name ++ ":before") :: next command ++ [name ++ ":after"]

/-! Section 4: the outbox of `src/src/outbox.rs`. -/

/-- Model of `outbox.rs`'s `Event` trait objects: the trait exposes
`event_type()` (all a matcher can observe); `to_string()` is used only for
error display and is omitted. -/
structure OEvent where
  event_type : String
  deriving DecidableEq, Repr

/-- Model of a boxed `EventMatcher` trait object of `outbox.rs`: its only
capability is `matches`. -/
abbrev OMatcher := OEvent → Bool

/-- Model of a boxed `EventHandler` trait object of `outbox.rs`:
`handle_event` returns `Result<(), Box<dyn Error>>`; the boxed error is
modelled by its message string. -/
abbrev OHandler := OEvent → Except String Unit

/-- Model of `OutboxError` (outbox.rs lines 59-62): the wrapped handler
error and the event whose delivery failed. -/
structure OutboxError where
  err : String
  event : OEvent

/-- Model of `SimpleOutbox` (outbox.rs lines 83-87): the Mutex-guarded
handler registration table and the unbounded crossbeam error channel,
modelled by the list of `OutboxError`s ever sent on it. -/
structure SimpleOutbox where
  handlers : List (OMatcher × OHandler)
  error_channel : List OutboxError

namespace SimpleOutbox

/-- Embedding of `SimpleOutbox::add_handler` (outbox.rs lines 122-131):
push the (matcher, handler) pair and return `Ok(())` — no duplicate check
of any kind is performed. -/
def add_handler (o : SimpleOutbox) (matcher : OMatcher) (handler : OHandler) :
    Except String SimpleOutbox :=
  .ok { o with handlers := o.handlers ++ [(matcher, handler)] }

/-- Embedding of `SimpleOutbox::handle_event` (outbox.rs lines 105-120):
for each registered pair in order, if the matcher matches and the handler
fails, send an `OutboxError` wrapping the failure and the (cloned) event on
the error channel; always return `Ok(())`. -/
def handle_event (o : SimpleOutbox) (event : OEvent) :
    SimpleOutbox × Except String Unit :=
  ({ o with error_channel := o.error_channel ++
      o.handlers.filterMap (fun mh =>
        if mh.1 event then
          match mh.2 event with
          | .error e => some ⟨e, event⟩
          | .ok _ => none
        else none) },
   .ok ())

/-- Embedding of `SimpleOutbox::errors` (outbox.rs lines 146-148): a clone
of the receiver of the outbox's own error channel, i.e. a stream yielding
exactly the errors sent on that channel. -/
def errors (o : SimpleOutbox) : List OutboxError :=
  o.error_channel

/-- Run a sequence of `add_handler` registrations in order, propagating the
first failure (none can occur, as proved below). -/
def registerAll (o : SimpleOutbox) :
    List (OMatcher × OHandler) → Except String SimpleOutbox
  | [] => .ok o
  | r :: rs =>
    match add_handler o r.1 r.2 with
    | .ok o2 => registerAll o2 rs
    | .error e => .error e

end SimpleOutbox

/-! Section 5: the event bus of `src/src/eventbus.rs`. -/

/-- Model of `EventBusError` (eventbus.rs lines 24-37). -/
inductive EventBusError where
  | MissingMatcher
  | MissingHandler
  | HandlerAlreadyAdded
  | HandlingError (msg : String)
  deriving DecidableEq, Repr

/-- Model of `EventBus` (eventbus.rs lines 40-43): the handler table is a
`HashMap<usize, Arc<dyn EventHandler>>` keyed by the handler's thin pointer
address, modelled as the list of keys present; `error_tx` is the stored
sender of the mpsc channel built in `new`, modelled by the list of values
ever sent on it. -/
structure EventBus where
  handlers : List Nat
  error_tx_sent : List EventBusError
  deriving Repr

namespace EventBus

/-- Embedding of `EventBus::new` (eventbus.rs lines 46-52): empty handler
table; a fresh mpsc channel whose receiver is immediately dropped and whose
sender is stored with nothing sent on it. -/
def new : EventBus := ⟨[], []⟩

/-- Embedding of `EventBus::add_handler` (eventbus.rs lines 54-72) for a
handler with pointer key `handler_key`. The `Arc::strong_count == 0` guards
for `MissingMatcher`/`MissingHandler` can never fire (a held `Arc` has
count at least 1) and are therefore not reachable in the model; then: error
`HandlerAlreadyAdded` if the key is present, otherwise insert. -/
def add_handler (bus : EventBus) (handler_key : Nat) :
    Except EventBusError EventBus :=
  if bus.handlers.contains handler_key then
    .error .HandlerAlreadyAdded
  else
    .ok { bus with handlers := bus.handlers ++ [handler_key] }

/-- Embedding of `EventBus::errors` (eventbus.rs lines 74-77): construct a
brand-new mpsc channel, drop its sender, and return its receiver. A
receiver yields exactly the messages sent on its channel's senders before
they are all dropped; nothing is ever sent on this fresh channel, so the
returned stream is empty. -/
def errors (_bus : EventBus) : List EventBusError :=
  []

/-- The observable calls a client can make on an `EventBus` after `new`. -/
inductive BusOp where
  | addHandler (key : Nat)
  | errorsCall
  | closeCall

/-- One client call against the bus state: `add_handler` mutates the table
on success and leaves it unchanged on error; `errors` (eventbus.rs lines
74-77) only builds a fresh local channel, touching no bus state; `close`
(lines 79-82) returns `Ok(())` and does nothing. -/
def step (bus : EventBus) (op : BusOp) : EventBus :=
  match op with
  | .addHandler k =>
    match bus.add_handler k with
    | .ok b => b
    | .error _ => bus
  | .errorsCall => bus
  | .closeCall => bus

/-- Run any sequence of client calls against a freshly constructed bus. -/
def run (ops : List BusOp) : EventBus :=
  ops.foldl step new

end EventBus

/-! Helper lemmas about the event store. -/

/-- Unfolding one `save` call in a call sequence: an empty batch leaves the
store unchanged, a non-empty batch appends its entry. -/
lemma runSavesFrom_cons (st : EStore α) (c : Uuid × List α × Int)
    (cs : List (Uuid × List α × Int)) :
    InMemoryEventStore.runSavesFrom st (c :: cs) =
      InMemoryEventStore.runSavesFrom
        (if c.2.1.isEmpty then st else st ++ [(c.1, c.2.1, c.2.2)]) cs := by
  simp only [InMemoryEventStore.runSavesFrom, List.foldl_cons]
  congr 1
  by_cases h : c.2.1.isEmpty
  · simp [InMemoryEventStore.save, h]
  · simp [InMemoryEventStore.save, h]

/-- `storedEvents` distributes over store concatenation. -/
lemma storedEvents_append (st1 st2 : EStore α) (id : Uuid) :
    InMemoryEventStore.storedEvents (st1 ++ st2) id =
      InMemoryEventStore.storedEvents st1 id ++
        InMemoryEventStore.storedEvents st2 id := by
  simp [InMemoryEventStore.storedEvents, List.filter_append]

/-- `storedEvents` of a single entry. -/
lemma storedEvents_singleton (cid : Uuid) (evs : List α) (v : Int) (id : Uuid) :
    InMemoryEventStore.storedEvents [(cid, evs, v)] id =
      if cid = id then evs else [] := by
  by_cases h : cid = id
  · simp [InMemoryEventStore.storedEvents, h]
  · simp [InMemoryEventStore.storedEvents, h]

/-- An aggregate id absent from every entry stores no events. -/
lemma storedEvents_nil_of_not_mem (store : EStore α) (id : Uuid)
    (h : id ∉ store.map Prod.fst) :
    InMemoryEventStore.storedEvents store id = [] := by
  unfold InMemoryEventStore.storedEvents
  rw [List.filter_eq_nil_iff.mpr]
  · rfl
  · intro e he
    simp only [beq_iff_eq]
    intro hid
    exact h (List.mem_map.mpr ⟨e, he, hid⟩)

/-- Generalized form of the C1 amendment: running saves from any starting
store appends exactly the non-empty pushed batches. -/
lemma storedEvents_runSavesFrom (calls : List (Uuid × List α × Int))
    (st : EStore α) (id : Uuid) :
    InMemoryEventStore.storedEvents (InMemoryEventStore.runSavesFrom st calls) id =
      InMemoryEventStore.storedEvents st id ++
        ((calls.filter (fun c => c.1 == id && !c.2.1.isEmpty)).map
          (fun c => c.2.1)).flatten := by
  induction calls generalizing st with
  | nil => simp [InMemoryEventStore.runSavesFrom]
  | cons c cs ih =>
    rw [runSavesFrom_cons]
    by_cases hemp : c.2.1.isEmpty
    · rw [if_pos hemp, ih]
      have : (c.1 == id && !c.2.1.isEmpty) = false := by
        simp [hemp]
      simp [List.filter_cons, this]
    · rw [if_neg hemp, ih, storedEvents_append, storedEvents_singleton]
      by_cases hid : c.1 = id
      · simp [List.filter_cons, hid, hemp, List.append_assoc]
      · simp [List.filter_cons, hid]

/-! Claim C1. -/

/-- C1 counterexample: the claim says that after any sequence of `save`
calls the events stored for an aggregate id have versions exactly
1, 2, 3, …. A single successful `save` of a batch whose sole event carries
version 5 (with `original_version = 0`) stores that event verbatim: the
stored version sequence is `[5]`, not `[1]`. -/
theorem save_version_invariant_counterexample :
    InMemoryEventStore.runSaves [(42, [MEvent.mk 5 "e"], 0)] =
      [(42, [MEvent.mk 5 "e"], 0)] ∧
    (InMemoryEventStore.storedEvents
        (InMemoryEventStore.runSaves [(42, [MEvent.mk 5 "e"], 0)]) 42).length = 1 ∧
    (InMemoryEventStore.storedEvents
        (InMemoryEventStore.runSaves [(42, [MEvent.mk 5 "e"], 0)]) 42).map
      MEvent.version ≠ [1] := by
  refine ⟨rfl, rfl, ?_⟩
  decide

/-- C1 (amended): `save` performs no version bookkeeping whatsoever.
After any sequence of `save` calls against an initially empty store, the
events stored under an aggregate id are exactly the concatenation of the
non-empty batches pushed with that (randomly generated) id, verbatim and
with whatever versions their events happened to carry; the spec's
`1, 2, 3, …` invariant is not established or preserved by `save`. -/
theorem save_stores_batches_verbatim (calls : List (Uuid × List MEvent × Int))
    (id : Uuid) :
    InMemoryEventStore.storedEvents (InMemoryEventStore.runSaves calls) id =
      ((calls.filter (fun c => c.1 == id && !c.2.1.isEmpty)).map
        (fun c => c.2.1)).flatten := by
  unfold InMemoryEventStore.runSaves
  rw [storedEvents_runSavesFrom]
  rfl

/-- Closed instance of `save_stores_batches_verbatim` at concrete calls. -/
theorem save_stores_batches_verbatim_witness :
    InMemoryEventStore.storedEvents
        (InMemoryEventStore.runSaves
          [(42, [MEvent.mk 5 "e"], 0), (42, [], 1), (7, [MEvent.mk 9 "f"], 2)]) 42 =
      [MEvent.mk 5 "e"] := by
  have h := save_stores_batches_verbatim
    [(42, [MEvent.mk 5 "e"], 0), (42, [], 1), (7, [MEvent.mk 9 "f"], 2)] 42
  simpa using h

/-! Claim C2. -/

/-- C2 counterexample: the spec's own scenario. A first `save` of two
events with `expected_version = 0` succeeds; the claim says a second
`save` for the same aggregate id with `expected_version = 0` must fail
with `ConcurrencyConflict`, but in the code it succeeds as well (the store
performs no version comparison and has no concurrency-conflict error at
all). -/
theorem save_concurrency_counterexample :
    InMemoryEventStore.save ([] : EStore MEvent) 42
        [MEvent.mk 1 "created", MEvent.mk 2 "renamed"] 0 =
      .ok [(42, [MEvent.mk 1 "created", MEvent.mk 2 "renamed"], 0)] ∧
    InMemoryEventStore.save
        [(42, [MEvent.mk 1 "created", MEvent.mk 2 "renamed"], 0)] 42
        [MEvent.mk 3 "closed"] 0 =
      .ok [(42, [MEvent.mk 1 "created", MEvent.mk 2 "renamed"], 0),
           (42, [MEvent.mk 3 "closed"], 0)] :=
  ⟨rfl, rfl⟩

/-- C2 (amended): `save` never compares any stored version against
`expected_version` and never fails with a concurrency error: it fails
(only with the `InvalidInput` "missing events" error) exactly when the
batch is empty, and otherwise unconditionally appends
`(fresh id, batch, original_version)` — so every non-empty `save`
succeeds, whatever `expected_version` is passed and whatever is already
stored. -/
theorem save_never_conflicts (store : EStore MEvent) (freshId : Uuid)
    (events : List MEvent) (ver : Int) :
    (events = [] ∧ InMemoryEventStore.save store freshId events ver =
        .error ⟨.invalidInput, "missing events", "save", none, none⟩) ∨
    (events ≠ [] ∧ InMemoryEventStore.save store freshId events ver =
        .ok (store ++ [(freshId, events, ver)])) := by
  cases events with
  | nil => exact Or.inl ⟨rfl, rfl⟩
  | cons e es =>
    refine Or.inr ⟨by simp, ?_⟩
    simp [InMemoryEventStore.save]

/-- Closed instance of `save_never_conflicts` at a concrete input. -/
theorem save_never_conflicts_witness :
    (InMemoryEventStore.save [(42, [MEvent.mk 1 "a"], 0)] 43 [MEvent.mk 1 "b"] 0 =
        .ok [(42, [MEvent.mk 1 "a"], 0), (43, [MEvent.mk 1 "b"], 0)]) := by
  rcases save_never_conflicts [(42, [MEvent.mk 1 "a"], 0)] 43 [MEvent.mk 1 "b"] 0 with
    ⟨h, _⟩ | ⟨_, h⟩
  · exact absurd h (by simp)
  · exact h

/-! Claim C3. -/

/-- C3 counterexample: the claim says a batch whose versions are not
contiguously `expected_version+1, expected_version+2, …` must fail with
`InvalidInput`. A batch with versions `[7, 9]` and `expected_version = 0`
(contiguity would demand `[1, 2]`) is accepted and stored verbatim: the
store never reads event versions. -/
theorem save_noncontiguous_counterexample :
    ([MEvent.mk 7 "a", MEvent.mk 9 "b"].map MEvent.version = [7, 9] ∧
      ([7, 9] : List Int) ≠ [1, 2]) ∧
    InMemoryEventStore.save ([] : EStore MEvent) 42
        [MEvent.mk 7 "a", MEvent.mk 9 "b"] 0 =
      .ok [(42, [MEvent.mk 7 "a", MEvent.mk 9 "b"], 0)] := by
  exact ⟨⟨rfl, by decide⟩, rfl⟩

/-- C3 (amended): `save` fails exactly when the batch is empty, storing
nothing (the store is untouched on failure), and that sole failure is the
`InvalidInput` "missing events" error; event versions are never inspected,
so every non-empty batch — contiguous or not — avoids `InvalidInput` and
indeed succeeds. -/
theorem save_invalid_input_iff_empty (store : EStore MEvent) (freshId : Uuid)
    (events : List MEvent) (ver : Int) :
    ((InMemoryEventStore.save store freshId events ver).isOk = true ↔ events ≠ []) ∧
    ((InMemoryEventStore.save store freshId events ver).isOk = false ↔
      InMemoryEventStore.save store freshId events ver =
        .error ⟨.invalidInput, "missing events", "save", none, none⟩) := by
  cases events with
  | nil => simp [InMemoryEventStore.save, Except.isOk, Except.toBool]
  | cons e es => simp [InMemoryEventStore.save, Except.isOk, Except.toBool]

/-- Closed instance of `save_invalid_input_iff_empty` at concrete inputs. -/
theorem save_invalid_input_iff_empty_witness :
    (InMemoryEventStore.save ([] : EStore MEvent) 42 [MEvent.mk 7 "a"] 0).isOk = true ∧
    InMemoryEventStore.save ([] : EStore MEvent) 42 ([] : List MEvent) 0 =
      .error ⟨.invalidInput, "missing events", "save", none, none⟩ := by
  constructor
  · exact (save_invalid_input_iff_empty [] 42 [MEvent.mk 7 "a"] 0).1.mpr (by simp)
  · exact (save_invalid_input_iff_empty [] 42 [] 0).2.mp rfl

/-! Claim C4. -/

/-- `storedEvents` of a cons cell. -/
lemma storedEvents_cons (ent : Uuid × List α × Int) (es : EStore α) (id : Uuid) :
    InMemoryEventStore.storedEvents (ent :: es) id =
      (if ent.1 = id then ent.2.1 else []) ++
        InMemoryEventStore.storedEvents es id := by
  by_cases h : ent.1 = id <;>
    simp [InMemoryEventStore.storedEvents, List.filter_cons, h]

/-- C4 counterexample: the claim says `load` returns events with versions
`1..N`. Saving a single event carrying version 3 and loading it back
returns that event verbatim: the returned version sequence is `[3]`, not
`[1]`. -/
theorem load_versions_counterexample :
    InMemoryEventStore.save ([] : EStore MEvent) 42 [MEvent.mk 3 "e"] 0 =
      .ok [(42, [MEvent.mk 3 "e"], 0)] ∧
    InMemoryEventStore.load [(42, [MEvent.mk 3 "e"], 0)] 42 =
      .ok [MEvent.mk 3 "e"] ∧
    ([MEvent.mk 3 "e"].map MEvent.version ≠ [1]) := by
  refine ⟨rfl, rfl, ?_⟩
  decide

/-- C4 (amended): provided the entry ids are pairwise distinct (which the
fresh random id generated by each `save` call makes overwhelmingly likely,
though the code does not enforce it), `load(id)` returns exactly the
events stored under `id`, in store order and verbatim — with whatever
versions they were saved with, not a normalized `1..N` — and fails with
the `NotFound` "aggregate not found" error when no entry carries `id`. -/
theorem load_returns_stored_history (store : EStore α) (id : Uuid)
    (h : (store.map Prod.fst).Nodup) :
    InMemoryEventStore.load store id =
      if id ∈ store.map Prod.fst then
        .ok (InMemoryEventStore.storedEvents store id)
      else
        .error ⟨.notFound, "aggregate not found", "load", some id, none⟩ := by
  induction store with
  | nil => simp [InMemoryEventStore.load, InMemoryEventStore.storedEvents]
  | cons ent es ih =>
    simp only [List.map_cons, List.nodup_cons] at h
    obtain ⟨h1, h2⟩ := h
    by_cases he : ent.1 = id
    · have hfind : (ent :: es).find? (fun e => e.1 == id) = some ent :=
        List.find?_cons_of_pos _ (by simp [he])
      have hnil : InMemoryEventStore.storedEvents es id = [] :=
        storedEvents_nil_of_not_mem es id (he ▸ h1)
      have hmem : id ∈ ent.1 :: es.map Prod.fst := by simp [he]
      unfold InMemoryEventStore.load
      rw [hfind, List.map_cons, if_pos hmem, storedEvents_cons, if_pos he, hnil]
      simp
    · have hfind : (ent :: es).find? (fun e => e.1 == id) =
          es.find? (fun e => e.1 == id) :=
        List.find?_cons_of_neg _ (by simp [he])
      have hih := ih h2
      unfold InMemoryEventStore.load at hih ⊢
      rw [hfind, hih, List.map_cons, storedEvents_cons, if_neg he]
      by_cases hm : id ∈ es.map Prod.fst
      · rw [if_pos hm, if_pos (List.mem_cons_of_mem _ hm)]
        simp
      · have : id ∉ ent.1 :: es.map Prod.fst := by
          simp only [List.mem_cons]
          rintro (rfl | hmm)
          · exact he rfl
          · exact hm hmm
        rw [if_neg hm, if_neg this]

/-- Closed instance of `load_returns_stored_history` at a concrete store. -/
theorem load_returns_stored_history_witness :
    InMemoryEventStore.load ([(42, [MEvent.mk 3 "x"], 0)] : EStore MEvent) 42 =
      .ok [MEvent.mk 3 "x"] := by
  have h := load_returns_stored_history
    ([(42, [MEvent.mk 3 "x"], 0)] : EStore MEvent) 42 (by decide)
  rw [if_pos (by decide :
    (42 : Uuid) ∈ ([(42, [MEvent.mk 3 "x"], 0)] : EStore MEvent).map Prod.fst)] at h
  exact h

/-! Claim C5. -/

/-- C5 counterexample: the claim says `load_from(id, v)` returns exactly
the events with version `≥ v`. After the code's own `save` of a batch with
events carrying versions 1 and 2 under `original_version = 0`, the stored
entry's version field is 0, so `load_from(id, 2)` finds no entry with
stored version `≥ 2` and fails with `NotFound` — even though an event with
version `≥ 2` exists and the claim demands it be returned. -/
theorem load_from_counterexample :
    InMemoryEventStore.save ([] : EStore MEvent) 42
        [MEvent.mk 1 "created", MEvent.mk 2 "renamed"] 0 =
      .ok [(42, [MEvent.mk 1 "created", MEvent.mk 2 "renamed"], 0)] ∧
    ([MEvent.mk 1 "created", MEvent.mk 2 "renamed"].filter
        (fun e => decide (2 ≤ e.version)) = [MEvent.mk 2 "renamed"]) ∧
    InMemoryEventStore.load_from
        [(42, [MEvent.mk 1 "created", MEvent.mk 2 "renamed"], 0)] 42 2 =
      .error ⟨.notFound, "aggregate not found or version mismatch",
        "load_from", some 42, some 2⟩ := by
  refine ⟨rfl, by decide, rfl⟩

/-- C5 (amended): `load_from(id, v)` never consults individual event
versions. It either returns — whole and unfiltered — the event batch of a
stored entry whose aggregate id is `id` and whose entry version (the
`original_version` passed to `save`) is `≥ v` (the first such entry in
store order), or fails with the `NotFound`
"aggregate not found or version mismatch" error when no entry satisfies
both conditions. -/
theorem load_from_returns_whole_batch (store : EStore α) (id : Uuid) (v : Int) :
    (∃ e ∈ store, e.1 = id ∧ v ≤ e.2.2 ∧
        InMemoryEventStore.load_from store id v = .ok e.2.1) ∨
    ((∀ e ∈ store, ¬(e.1 = id ∧ v ≤ e.2.2)) ∧
      InMemoryEventStore.load_from store id v =
        .error ⟨.notFound, "aggregate not found or version mismatch",
          "load_from", some id, some v⟩) := by
  unfold InMemoryEventStore.load_from
  cases hf : store.find? (fun e => e.1 == id && decide (v ≤ e.2.2)) with
  | some e =>
    left
    have hm := List.mem_of_find?_eq_some hf
    have hp := List.find?_some hf
    simp only [Bool.and_eq_true, beq_iff_eq, decide_eq_true_eq] at hp
    exact ⟨e, hm, hp.1, hp.2, rfl⟩
  | none =>
    right
    refine ⟨?_, rfl⟩
    intro e he
    have hne := List.find?_eq_none.mp hf e he
    simp only [Bool.and_eq_true, beq_iff_eq, decide_eq_true_eq, not_and] at hne
    rintro ⟨h1, h2⟩
    exact hne h1 h2

/-- Closed instance of `load_from_returns_whole_batch` at a concrete
store: the whole batch is returned although it contains an event with
version `1 < 2`. -/
theorem load_from_returns_whole_batch_witness :
    InMemoryEventStore.load_from
        ([(42, [MEvent.mk 1 "a", MEvent.mk 2 "b"], 5)] : EStore MEvent) 42 2 =
      .ok [MEvent.mk 1 "a", MEvent.mk 2 "b"] := by
  rcases load_from_returns_whole_batch
      ([(42, [MEvent.mk 1 "a", MEvent.mk 2 "b"], 5)] : EStore MEvent) 42 2 with
    ⟨e, he, _, _, hres⟩ | ⟨hall, _⟩
  · rw [List.mem_singleton] at he
    subst he
    exact hres
  · exact absurd (by decide : ((42 : Uuid) = 42 ∧ (2 : Int) ≤ 5))
      (hall _ (List.mem_singleton.mpr rfl))

/-! Claim C6. -/

/-- Unfolding lemma: `MatchAll` checks all sub-matchers. -/
lemma matcherMatches_MatchAll (e : TestEvent) (ms : List EventMatcher) :
    matcherMatches e (.MatchAll ms) =
      ms.attach.all (fun m => matcherMatches e m.1) := by
  rw [matcherMatches]

/-- Unfolding lemma: `MatchAny` checks for some sub-matcher. -/
lemma matcherMatches_MatchAny (e : TestEvent) (ms : List EventMatcher) :
    matcherMatches e (.MatchAny ms) =
      ms.attach.any (fun m => matcherMatches e m.1) := by
  rw [matcherMatches]

/-- C6: the matcher algebra. `MatchAll []` matches every event and
`MatchAny []` matches none; `MatchAll ms` matches exactly when every
sub-matcher does (boolean AND) and `MatchAny ms` exactly when at least one
does (boolean OR). -/
theorem matcher_algebra (e : TestEvent) :
    matcherMatches e (.MatchAll []) = true ∧
    matcherMatches e (.MatchAny []) = false ∧
    (∀ ms : List EventMatcher,
      (matcherMatches e (.MatchAll ms) = true ↔
        ∀ m ∈ ms, matcherMatches e m = true) ∧
      (matcherMatches e (.MatchAny ms) = true ↔
        ∃ m ∈ ms, matcherMatches e m = true)) := by
  refine ⟨by rw [matcherMatches_MatchAll]; rfl,
    by rw [matcherMatches_MatchAny]; rfl, fun ms => ⟨?_, ?_⟩⟩
  · rw [matcherMatches_MatchAll, List.all_eq_true]
    constructor
    · intro hall m hm
      exact hall ⟨m, hm⟩ (List.mem_attach _ _)
    · intro hall x _
      exact hall x.1 x.2
  · rw [matcherMatches_MatchAny, List.any_eq_true]
    constructor
    · rintro ⟨x, _, hx⟩
      exact ⟨x.1, x.2, hx⟩
    · rintro ⟨m, hm, hx⟩
      exact ⟨⟨m, hm⟩, List.mem_attach _ _, hx⟩

/-- Closed instance of `matcher_algebra` at a concrete event and matcher
list. -/
theorem matcher_algebra_witness :
    matcherMatches ⟨⟨1⟩, ⟨2⟩⟩ (.MatchAll []) = true ∧
    matcherMatches ⟨⟨1⟩, ⟨2⟩⟩ (.MatchAny []) = false ∧
    matcherMatches ⟨⟨1⟩, ⟨2⟩⟩
      (.MatchAll [.MatchEvents [⟨1⟩], .MatchAggregates [⟨2⟩]]) = true := by
  obtain ⟨h1, h2, h3⟩ := matcher_algebra ⟨⟨1⟩, ⟨2⟩⟩
  refine ⟨h1, h2, (h3 [.MatchEvents [⟨1⟩], .MatchAggregates [⟨2⟩]]).1.mpr ?_⟩
  intro m hm
  simp only [List.mem_cons, List.mem_singleton, List.not_mem_nil, or_false] at hm
  rcases hm with rfl | rfl
  · rw [matcherMatches]; rfl
  · rw [matcherMatches]; rfl

/-! Claim C7. -/

/-- The loop of `use_command_handler_middleware` (fold from the reversed
list) builds the right-nested application `m0 (m1 (… mk h))`. -/
lemma use_command_handler_middleware_eq_foldr {H : Type} (handler : H)
    (middlewares : List (H → H)) :
    use_command_handler_middleware handler middlewares =
      middlewares.foldr (fun m h => m h) handler := by
  simp [use_command_handler_middleware, List.foldl_reverse]

/-- Same, for the event-handler variant. -/
lemma use_event_handler_middleware_eq_foldr {H : Type} (handler : H)
    (middlewares : List (H → H)) :
    use_event_handler_middleware handler middlewares =
      middlewares.foldr (fun m h => m h) handler := by
  simp [use_event_handler_middleware, List.foldl_reverse]

/-- C7: middleware composition order. Both chaining functions return the
handler `m0 (m1 (… mk h))` — the first middleware of the list is the
outermost wrapper — and consequently, for trace-observable decorating
middlewares, a call logs all before-lines in list order, then the terminal
handler's output, then the after-lines in reverse list order. -/
theorem middleware_composition_order :
    (∀ (H : Type) (handler : H) (middlewares : List (H → H)),
        use_command_handler_middleware handler middlewares =
          middlewares.foldr (fun m h => m h) handler) ∧
    (∀ (H : Type) (handler : H) (middlewares : List (H → H)),
        use_event_handler_middleware handler middlewares =
          middlewares.foldr (fun m h => m h) handler) ∧
    (∀ (names : List String) (handler : TraceHandler) (command : String),
        use_command_handler_middleware handler (names.map logging_middleware)
            command =
          names.map (fun n => n ++ ":before") ++ handler command ++
            names.reverse.map (fun n => n ++ ":after")) := by
  refine ⟨fun H handler ms => use_command_handler_middleware_eq_foldr handler ms,
    fun H handler ms => use_event_handler_middleware_eq_foldr handler ms,
    fun names handler command => ?_⟩
  induction names with
  | nil => simp [use_command_handler_middleware]
  | cons n ns ih =>
    rw [List.map_cons, use_command_handler_middleware_eq_foldr, List.foldr_cons,
      ← use_command_handler_middleware_eq_foldr]
    simp only [logging_middleware, ih]
    simp [List.append_assoc]

/-- Closed instance of `middleware_composition_order` with two named
middlewares around a terminal handler. -/
theorem middleware_composition_order_witness :
    use_command_handler_middleware (fun command => ["terminal:" ++ command])
        [logging_middleware "m0", logging_middleware "m1"] "cmd" =
      ["m0:before", "m1:before", "terminal:cmd", "m1:after", "m0:after"] := by
  have h := middleware_composition_order.2.2 ["m0", "m1"]
    (fun command => ["terminal:" ++ command]) "cmd"
  simpa using h

/-! Claim C8. -/

/-- C8 counterexample: registering the very same (matcher, handler) pair a
second time does not fail — `SimpleOutbox::add_handler` performs no
duplicate check and appends the duplicate to the registration table. -/
theorem outbox_add_handler_duplicate_counterexample :
    SimpleOutbox.add_handler
        ⟨[((fun e => e.event_type == "test_event"), (fun _ => Except.ok ()))], []⟩
        (fun e => e.event_type == "test_event") (fun _ => Except.ok ()) =
      .ok ⟨[((fun e => e.event_type == "test_event"), (fun _ => Except.ok ())),
            ((fun e => e.event_type == "test_event"), (fun _ => Except.ok ()))],
          []⟩ :=
  rfl

/-- C8 (amended): `SimpleOutbox::add_handler` never fails: every
registration sequence — duplicates included — succeeds, and the
registration table afterwards is the previous table with all pairs
appended in order (duplicates accumulate rather than being rejected).
Duplicate rejection exists in this repository only in
`EventBus::add_handler`, which is a different component. -/
theorem outbox_add_handler_always_ok (o : SimpleOutbox)
    (regs : List (OMatcher × OHandler)) :
    SimpleOutbox.registerAll o regs = .ok ⟨o.handlers ++ regs, o.error_channel⟩ := by
  induction regs generalizing o with
  | nil => simp [SimpleOutbox.registerAll]
  | cons r rs ih =>
    simp [SimpleOutbox.registerAll, SimpleOutbox.add_handler, ih]

/-- Closed instance of `outbox_add_handler_always_ok` registering the same
pair twice. -/
theorem outbox_add_handler_always_ok_witness :
    SimpleOutbox.registerAll ⟨[], []⟩
        [((fun e => e.event_type == "t"), (fun _ => Except.ok ())),
         ((fun e => e.event_type == "t"), (fun _ => Except.ok ()))] =
      .ok ⟨[((fun e => e.event_type == "t"), (fun _ => Except.ok ())),
            ((fun e => e.event_type == "t"), (fun _ => Except.ok ()))], []⟩ := by
  have h := outbox_add_handler_always_ok ⟨[], []⟩
    [((fun e => e.event_type == "t"), (fun _ => Except.ok ())),
     ((fun e => e.event_type == "t"), (fun _ => Except.ok ()))]
  simpa using h

/-! Claim C9. -/

/-- C9: `SimpleOutbox::handle_event` always returns `Ok(())` to its caller
— handler failures are never surfaced — while every matching handler that
fails contributes an `OutboxError` wrapping its error and the event to the
outbox's error channel, observable through `errors()`. -/
theorem outbox_handler_errors_not_surfaced (o : SimpleOutbox) (event : OEvent) :
    (SimpleOutbox.handle_event o event).2 = Except.ok () ∧
    (SimpleOutbox.handle_event o event).1.handlers = o.handlers ∧
    SimpleOutbox.errors (SimpleOutbox.handle_event o event).1 =
      SimpleOutbox.errors o ++
        o.handlers.filterMap (fun mh =>
          if mh.1 event then
            match mh.2 event with
            | .error err => some ⟨err, event⟩
            | .ok _ => none
          else none) ∧
    (∀ (matcher : OMatcher) (handler : OHandler) (err : String),
      (matcher, handler) ∈ o.handlers → matcher event = true →
      handler event = Except.error err →
      (⟨err, event⟩ : OutboxError) ∈
        SimpleOutbox.errors (SimpleOutbox.handle_event o event).1) := by
  refine ⟨rfl, rfl, rfl, ?_⟩
  intro matcher handler err hmem hmatch herr
  show _ ∈ o.error_channel ++ _
  apply List.mem_append_right
  apply List.mem_filterMap.mpr
  refine ⟨(matcher, handler), hmem, ?_⟩
  simp [hmatch, herr]

/-- Closed instance of `outbox_handler_errors_not_surfaced`: one failing
matching handler; the caller sees success and the error stream carries the
wrapped failure. -/
theorem outbox_handler_errors_not_surfaced_witness :
    (SimpleOutbox.handle_event
        ⟨[((fun _ => true), (fun _ => Except.error "boom"))], []⟩ ⟨"t"⟩).2 =
      Except.ok () ∧
    (⟨"boom", ⟨"t"⟩⟩ : OutboxError) ∈
      SimpleOutbox.errors
        (SimpleOutbox.handle_event
          ⟨[((fun _ => true), (fun _ => Except.error "boom"))], []⟩ ⟨"t"⟩).1 := by
  obtain ⟨h1, _, _, h4⟩ := outbox_handler_errors_not_surfaced
    ⟨[((fun _ => true), (fun _ => Except.error "boom"))], []⟩ ⟨"t"⟩
  exact ⟨h1, h4 (fun _ => true) (fun _ => Except.error "boom") "boom"
    (List.mem_cons_self _ _) rfl rfl⟩

/-! Claim C10. -/

/-- A single client call never sends anything on the bus's stored error
sender. -/
lemma eventbus_step_error_tx_sent (bus : EventBus) (op : EventBus.BusOp) :
    (EventBus.step bus op).error_tx_sent = bus.error_tx_sent := by
  cases op with
  | addHandler k =>
    unfold EventBus.step EventBus.add_handler
    by_cases h : k ∈ bus.handlers <;> simp [h]
  | errorsCall => rfl
  | closeCall => rfl

/-- Folding client calls never sends anything on the stored error sender. -/
lemma eventbus_run_error_tx_sent (ops : List EventBus.BusOp) (bus : EventBus) :
    (ops.foldl EventBus.step bus).error_tx_sent = bus.error_tx_sent := by
  induction ops generalizing bus with
  | nil => rfl
  | cons op ops ih => rw [List.foldl_cons, ih, eventbus_step_error_tx_sent]

/-- C10: after any sequence of client calls on a freshly constructed
`EventBus`, nothing has ever been sent on the internally stored error
sender, and the receiver returned by `errors()` — built on a fresh channel
whose sender is immediately dropped — yields no `EventBusError` value. -/
theorem eventbus_errors_always_empty (ops : List EventBus.BusOp) :
    (EventBus.run ops).error_tx_sent = [] ∧
    EventBus.errors (EventBus.run ops) = [] := by
  exact ⟨eventbus_run_error_tx_sent ops EventBus.new, rfl⟩

/-- Closed instance of `eventbus_errors_always_empty` at a concrete call
sequence. -/
theorem eventbus_errors_always_empty_witness :
    (EventBus.run [.addHandler 1, .addHandler 1, .errorsCall, .closeCall]).error_tx_sent = [] ∧
    EventBus.errors
      (EventBus.run [.addHandler 1, .addHandler 1, .errorsCall, .closeCall]) = [] :=
  eventbus_errors_always_empty [.addHandler 1, .addHandler 1, .errorsCall, .closeCall]

end ESHorizon
